import Mathlib

/-!
Shallow embedding of the two source files of this repository:
  - src/python/ray/train/backends/horovod.py (Horovod backend adapter)
  - src/doc/source/data/_examples/big_data_ingestion.py (ingestion example)

The Horovod adapter is glue code over external libraries (ray worker groups,
the horovod coordinator).  We embed its observable behaviour as an event
trace: each call into an external API becomes one event, emitted in the
order the Python code performs the calls.  Results returned by external
calls (the registration info dictionary, the rendezvous environment, the
detected network interfaces) are parameters of the embedding, since they
are produced outside this repository.
-/

namespace Horovod

/-- Environment-variable dictionaries passed around by the adapter
(Python dicts of str to str), as association lists in insertion order. -/
def EnvMap : Type := List (String × String)

deriving instance DecidableEq, Repr for EnvMap

/-- Metadata of one worker, as read from `worker_group.workers[rank].metadata`
in horovod.py (fields `node_id` and `hostname`). -/
structure WorkerMetadata where
  node_id : String
  hostname : String
  deriving DecidableEq, Repr

/-- One worker of the worker group; horovod.py only reads its `metadata`. -/
structure Worker where
  metadata : WorkerMetadata
  deriving DecidableEq, Repr

/-- The external worker-group abstraction: horovod.py uses `len(worker_group)`
and the list `worker_group.workers`. -/
structure WorkerGroup where
  workers : List Worker
  deriving DecidableEq, Repr

/-- The settings dataclass `HorovodConfig` of horovod.py: a network-interface
set `nics` (default `None`) and a verbosity level `verbose` (default `1`). -/
structure HorovodConfig where
  nics : Option (List String) := none
  verbose : Int := 1
  deriving DecidableEq, Repr

/-- The error message raised by `HorovodConfig.__post_init__` when the
optional `horovod[ray]` dependency is not importable (`Coordinator is None`). -/
def horovodMissingMsg : String :=
  "`horovod[ray]` is not installed. Please install 'horovod[ray]' to use this backend."

/-- Construction of a `HorovodConfig`, including the `__post_init__` guard of
horovod.py: the dataclass stores `nics` and `verbose`, then raises a
ValueError when `Coordinator is None`, i.e. when the optional dependency is
absent.  `coordinatorInstalled` embeds whether the import at the top of
horovod.py succeeded; a raised ValueError becomes `Except.error`. -/
def mkHorovodConfig (coordinatorInstalled : Bool)
    (nics : Option (List String) := none) (verbose : Int := 1) :
    Except String HorovodConfig :=
  if coordinatorInstalled then
    Except.ok { nics := nics, verbose := verbose }
  else
    Except.error horovodMissingMsg

/-- Mutable process environments touched by `init_env_vars`
(`os.environ`), as partial maps from variable name to value. -/
def Env : Type := String → Option String

/-- One assignment `os.environ[k] = v`. -/
def setEnv (env : Env) (k v : String) : Env :=
  fun q => if q = k then some v else env q

/-- The function `init_env_vars(world_rank, world_size, node_id)` of
horovod.py: three `os.environ` assignments, in source order
HOROVOD_HOSTNAME, HOROVOD_RANK, HOROVOD_SIZE. -/
def init_env_vars (world_rank world_size : Nat) (node_id : String) (env : Env) : Env :=
  setEnv (setEnv (setEnv env "HOROVOD_HOSTNAME" node_id)
      "HOROVOD_RANK" (toString world_rank))
    "HOROVOD_SIZE" (toString world_size)

/-- Functions shipped to workers via `worker_group.execute_single_async` or
`worker_group.execute` in `HorovodBackend.on_start`, with their arguments:
`init_env_vars(rank, len(worker_group), worker_node_id)` and
`update_env_vars(env_dict)`. -/
inductive RemoteCall where
  | callInitEnvVars (world_rank world_size : Nat) (node_id : String)
  | callUpdateEnvVars (env : EnvMap)
  deriving DecidableEq, Repr

/-- A future handle returned by `execute_single_async(rank, fn, args)`:
the target rank together with the shipped call. -/
def Future : Type := Nat × RemoteCall

deriving instance DecidableEq, Repr for Future

/-- Observable events of `HorovodBackend.on_start`, one per call into an
external API, in program order. -/
inductive Event where
  | executeSingleAsync (rank : Nat) (call : RemoteCall)
  | rayGet (futures : List Future)
  | coordinatorInit (cfg : HorovodConfig)
  | coordinatorRegister (hostname node_id : String) (rank : Nat)
  | coordinatorFinalize
  | coordinatorEstablishRendezvous
  | detectNicsCall
  | executeBroadcast (call : RemoteCall)
  deriving DecidableEq, Repr

/-- Python `dict.update`: keys of `b` override those of `a` in place, keys of
`b` not present in `a` are appended in order. -/
def dictUpdate (a b : EnvMap) : EnvMap :=
  (List.map (fun p =>
      match List.lookup p.1 b with
      | some v => (p.1, v)
      | none => p) a)
    ++ List.filter (fun q => (List.lookup q.1 a).isNone) b

/-- Results produced by the external horovod library during `on_start`:
`all_info` is the dictionary returned by `coordinator.finalize_registration()`
(per-rank cross-worker environment deltas, in iteration order),
`rendezvous_envs` the dictionary returned by
`coordinator.establish_rendezvous()`, and `nics_env` the dictionary
`nics_to_env_var(detect_nics(...))` built from the detected interfaces. -/
structure HorovodExternal where
  all_info : List (Nat × EnvMap)
  rendezvous_envs : EnvMap
  nics_env : EnvMap

/-- Trace of `HorovodBackend.on_start(worker_group, backend_config)`: the
sequence of external calls the method performs, in source order.  Block by
block: the first loop issues `init_env_vars` on every worker asynchronously
and `ray.get` waits on those futures; the coordinator is constructed from
`backend_config`; every worker is registered by enumerating the zipped
hostname and node-id lists; registration is finalized; the second loop ships
each per-rank environment delta of `all_info` asynchronously and `ray.get`
waits again; rendezvous is established; interfaces are detected; finally the
rendezvous environment updated with the interface variables is broadcast to
all workers via `worker_group.execute(update_env_vars, coordinator_envs)`. -/
def on_start (worker_group : WorkerGroup) (backend_config : HorovodConfig)
    (ext : HorovodExternal) : List Event :=
  let setup_futures1 : List Future :=
    (worker_group.workers.enum).map (fun p =>
      (p.1, RemoteCall.callInitEnvVars p.1 worker_group.workers.length p.2.metadata.node_id))
  let node_ids := worker_group.workers.map (fun w => w.metadata.node_id)
  let hostnames := worker_group.workers.map (fun w => w.metadata.hostname)
  let setup_futures2 : List Future :=
    ext.all_info.map (fun p => (p.1, RemoteCall.callUpdateEnvVars p.2))
  let coordinator_envs := dictUpdate ext.rendezvous_envs ext.nics_env
  (setup_futures1.map (fun f => Event.executeSingleAsync f.1 f.2))
    ++ [Event.rayGet setup_futures1]
    ++ [Event.coordinatorInit backend_config]
    ++ (((hostnames.zip node_ids).enum).map (fun p =>
          Event.coordinatorRegister p.2.1 p.2.2 p.1))
    ++ [Event.coordinatorFinalize]
    ++ (setup_futures2.map (fun f => Event.executeSingleAsync f.1 f.2))
    ++ [Event.rayGet setup_futures2]
    ++ [Event.coordinatorEstablishRendezvous]
    ++ [Event.detectNicsCall]
    ++ [Event.executeBroadcast (RemoteCall.callUpdateEnvVars coordinator_envs)]

/-- Recognizer for `coordinator.register` events. -/
def isRegisterEvent : Event → Bool
  | Event.coordinatorRegister _ _ _ => true
  | _ => false

/-- Recognizer for `Coordinator(backend_config)` construction events. -/
def isCoordinatorInitEvent : Event → Bool
  | Event.coordinatorInit _ => true
  | _ => false

/-- Recognizer for the events of the final handshake phase: rendezvous
establishment, interface detection, and the broadcast environment
propagation. -/
def isFinalPhaseEvent : Event → Bool
  | Event.coordinatorEstablishRendezvous => true
  | Event.detectNicsCall => true
  | Event.executeBroadcast _ => true
  | _ => false

/-- Events that start work of a handshake phase beyond the asynchronous
request pattern itself: every external call except issuing an asynchronous
per-worker request and waiting on requests. -/
def isPhaseBoundary : Event → Bool
  | Event.executeSingleAsync _ _ => false
  | Event.rayGet _ => false
  | _ => true

/-- Number of outstanding asynchronous requests after an event:
`execute_single_async` issues one more; `ray.get(futures)` blocks until the
given futures completed, resolving that many. -/
def stepOutstanding (acc : Nat) : Event → Nat
  | Event.executeSingleAsync _ _ => acc + 1
  | Event.rayGet futures => acc - futures.length
  | _ => acc

/-- Outstanding asynchronous requests after processing a whole trace. -/
def outstandingAfter (trace : List Event) : Nat :=
  trace.foldl stepOutstanding 0

/-- Along a trace, starting from `acc` outstanding asynchronous requests,
every phase-boundary event occurs while no request is outstanding. -/
def BoundariesQuiescent : Nat → List Event → Prop
  | _, [] => True
  | acc, e :: rest =>
    (isPhaseBoundary e = true → acc = 0) ∧ BoundariesQuiescent (stepOutstanding acc e) rest

/-- Handshake step index of an event, following the seven steps
seed-env-vars, build-coordinator, register-hosts, finalize,
propagate-cross-env-vars, establish-rendezvous, detect-and-propagate-nics.
The two `ray.get` waits are told apart by the calls their futures carry. -/
def stepOf : Event → Nat
  | Event.executeSingleAsync _ (RemoteCall.callInitEnvVars _ _ _) => 1
  | Event.executeSingleAsync _ (RemoteCall.callUpdateEnvVars _) => 5
  | Event.rayGet ((_, RemoteCall.callInitEnvVars _ _ _) :: _) => 1
  | Event.rayGet _ => 5
  | Event.coordinatorInit _ => 2
  | Event.coordinatorRegister _ _ _ => 3
  | Event.coordinatorFinalize => 4
  | Event.coordinatorEstablishRendezvous => 6
  | Event.detectNicsCall => 7
  | Event.executeBroadcast _ => 7

/-- Collapse adjacent equal elements of a list (the sequence of step indices
of a trace with runs of one step merged). -/
def collapseRuns : List Nat → List Nat
  | [] => []
  | [a] => [a]
  | a :: b :: rest =>
    if a = b then collapseRuns (b :: rest) else a :: collapseRuns (b :: rest)

/-- Concrete one-worker worker group used to instantiate the universally
quantified theorems on a sample input. -/
def sampleWorkerGroup : WorkerGroup :=
  { workers := [{ metadata := { node_id := "node0", hostname := "host0" } }] }

/-- Concrete external results used to instantiate the universally quantified
theorems on a sample input. -/
def sampleExternal : HorovodExternal :=
  { all_info := [(0, [("HOROVOD_CROSS_RANK", "0")])],
    rendezvous_envs := [("HOROVOD_GLOO_RENDEZVOUS_ADDR", "127.0.0.1")],
    nics_env := [("GLOO_IFACE", "eth0")] }

end Horovod

namespace BigDataIngestion

/-!
Embedding of src/doc/source/data/_examples/big_data_ingestion.py.  The
dataset and pipeline objects live in the external ray.data library; the
script only composes calls on them, so a pipeline value is embedded as the
tree of calls the script performs.
-/

/-- Call trees over the external dataset and pipeline API, one constructor
per method the script invokes: `ray.data.read_parquet(dir)`,
`ray.data.read_datasource(RandomIntRowDatasource(), n, num_columns, ...)`
with its optional spread-resources keyword, `.repeat(num_epochs)`,
`.random_shuffle_each_window(...)` with the same optional keyword, and
`.split(num_shards, equal)`. -/
inductive PipelineExpr where
  | read_parquet (dir : String)
  | read_random_int_rows (n : Nat) (num_columns : Nat) (spread : Option String)
  | repeat (p : PipelineExpr) (num_epochs : Nat)
  | random_shuffle_each_window (p : PipelineExpr) (spread : Option String)
  | split (p : PipelineExpr) (num_shards : Nat) (equal : Bool)
  deriving DecidableEq, Repr

/-- The function `create_shuffle_pipeline(training_data_dir, num_epochs,
num_shards)` of the script: read the parquet directory, repeat for the
epochs, shuffle each window, split into equal shards. -/
def create_shuffle_pipeline (training_data_dir : String)
    (num_epochs num_shards : Nat) : PipelineExpr :=
  PipelineExpr.split
    (PipelineExpr.random_shuffle_each_window
      (PipelineExpr.repeat (PipelineExpr.read_parquet training_data_dir) num_epochs)
      none)
    num_shards true

/-- The function `create_large_shuffle_pipeline(data_size_bytes, num_epochs,
num_columns, num_shards)` of the script: read the random-integer datasource
with `n = data_size_bytes // 8 // num_columns` rows (spread over the nodes),
repeat for the epochs, shuffle each window (spread over the nodes), split
into equal shards. -/
def create_large_shuffle_pipeline (data_size_bytes num_epochs num_columns num_shards : Nat) :
    PipelineExpr :=
  PipelineExpr.split
    (PipelineExpr.random_shuffle_each_window
      (PipelineExpr.repeat
        (PipelineExpr.read_random_int_rows (data_size_bytes / 8 / num_columns)
          num_columns (some "node:"))
        num_epochs)
      (some "node:"))
    num_shards true

/-- The constant `NUM_COLUMNS` of the script (both branches set it to 10). -/
def NUM_COLUMNS : Nat := 10

/-- The read performed by `generate_example_files(size_bytes)` in the small
branch of the script: the random-integer datasource with
`n = size_bytes // 8 // NUM_COLUMNS` rows and `NUM_COLUMNS` columns, whose
result is written to a temporary parquet directory. -/
def generate_example_files_read (size_bytes : Nat) : PipelineExpr :=
  PipelineExpr.read_random_int_rows (size_bytes / 8 / NUM_COLUMNS) NUM_COLUMNS none

/-- Number of rows requested from the random-integer datasource at the leaf
of a call tree, when the tree reads that datasource. -/
def requestedRows : PipelineExpr → Option Nat
  | PipelineExpr.read_parquet _ => none
  | PipelineExpr.read_random_int_rows n _ _ => some n
  | PipelineExpr.repeat p _ => requestedRows p
  | PipelineExpr.random_shuffle_each_window p _ => requestedRows p
  | PipelineExpr.split p _ _ => requestedRows p

/-- Stated from the spec for the refinement claim about the pipeline
builders: a pipeline is the four-step call chain from a given source when it
loads that source, repeats it for the epochs, shuffles each window, and
splits into the given number of shards with `equal` set, for some value of
the incidental spread keyword. -/
def IsFourStepChain (source : PipelineExpr) (num_epochs num_shards : Nat)
    (p : PipelineExpr) : Prop :=
  ∃ spread,
    p = PipelineExpr.split
      (PipelineExpr.random_shuffle_each_window
        (PipelineExpr.repeat source num_epochs) spread)
      num_shards true

/-- One end-to-end run of the script: which cluster `ray.init` targets, how
much data is generated or read, and how many training workers consume the
shards with how many GPUs each. -/
structure RunConfig where
  address : Option String
  dataSizeBytes : Nat
  numTrainingWorkers : Nat
  numEpochs : Nat
  numColumns : Nat
  gpusPerWorker : Option Nat
  deriving DecidableEq, Repr

/-- The run of the `if not args.large_scale_test` branch: a local
`ray.init()`, 100 MiB of generated data, 4 training workers, 5 epochs, 10
columns, no GPU requirement. -/
def smallRun : RunConfig :=
  { address := none, dataSizeBytes := 100 * 1024 * 1024, numTrainingWorkers := 4,
    numEpochs := 5, numColumns := 10, gpusPerWorker := none }

/-- The run of the `if args.large_scale_test` branch: `ray.init` with
address auto, 500 GiB of data, 16 training workers with one GPU each, 5
epochs, 10 columns. -/
def largeRun : RunConfig :=
  { address := some "auto", dataSizeBytes := 500 * 1024 * 1024 * 1024,
    numTrainingWorkers := 16, numEpochs := 5, numColumns := 10, gpusPerWorker := some 1 }

/-- The runs the script performs for a given value of the
`--large-scale-test` flag: the script contains two successive guarded
blocks, one under `if not args.large_scale_test` and one under
`if args.large_scale_test`. -/
def scriptRuns (large_scale_test : Bool) : List RunConfig :=
  (if !large_scale_test then [smallRun] else []) ++
    (if large_scale_test then [largeRun] else [])

end BigDataIngestion

namespace Horovod

/-- Filtering a mapped block drops everything when the predicate rejects
every image. -/
theorem filter_map_none {α : Type} (p : Event → Bool) (f : α → Event)
    (h : ∀ a, p (f a) = false) (l : List α) : (l.map f).filter p = [] := by
  induction l with
  | nil => rfl
  | cons a t ih => simp [List.filter, h, ih]

/-- Filtering a mapped block keeps everything when the predicate accepts
every image. -/
theorem filter_map_all {α : Type} (p : Event → Bool) (f : α → Event)
    (h : ∀ a, p (f a) = true) (l : List α) : (l.map f).filter p = l.map f := by
  induction l with
  | nil => rfl
  | cons a t ih => simp [List.filter, h, ih]

/-- Theorem for claim C1: constructing a `HorovodConfig` raises its ValueError
if and only if the optional `horovod[ray]` dependency is absent (the imported
`Coordinator` is `None`); when the dependency is present, construction with
any `nics` and `verbose` values succeeds without raising. -/
theorem horovodConfig_guard_iff_dependency_absent
    (installed : Bool) (nics : Option (List String)) (verbose : Int) :
    ((∃ msg, mkHorovodConfig installed nics verbose = Except.error msg) ↔ installed = false)
    ∧ mkHorovodConfig true nics verbose = Except.ok { nics := nics, verbose := verbose } := by
  constructor
  · constructor
    · intro h
      rcases h with ⟨msg, hmsg⟩
      cases installed with
      | false => rfl
      | true => simp [mkHorovodConfig] at hmsg
    · intro h
      subst h
      exact ⟨horovodMissingMsg, rfl⟩
  · rfl

/-- Theorem for claim C9: a call `init_env_vars(world_rank, world_size, node_id)`
writes exactly three environment variables and nothing else: HOROVOD_HOSTNAME
becomes the node identifier `node_id`, HOROVOD_RANK the decimal string of
`world_rank`, HOROVOD_SIZE the decimal string of `world_size`, and every other
variable keeps its previous value. -/
theorem init_env_vars_writes_exactly_three
    (world_rank world_size : Nat) (node_id : String) (env : Env) (k : String) :
    init_env_vars world_rank world_size node_id env k =
      if k = "HOROVOD_SIZE" then some (toString world_size)
      else if k = "HOROVOD_RANK" then some (toString world_rank)
      else if k = "HOROVOD_HOSTNAME" then some node_id
      else env k := by
  by_cases h1 : k = "HOROVOD_SIZE" <;>
    by_cases h2 : k = "HOROVOD_RANK" <;>
      by_cases h3 : k = "HOROVOD_HOSTNAME" <;>
        simp_all [init_env_vars, setEnv]

/-- Theorem for claim C2: for a worker group of n workers, `on_start` calls
the coordinator register exactly once per worker, n calls in total, in rank
order 0, 1, ..., n-1 matching the worker-group enumeration order, each call
passing that worker's hostname, node id and rank. -/
theorem on_start_registers_each_worker_in_rank_order
    (wg : WorkerGroup) (cfg : HorovodConfig) (ext : HorovodExternal) :
    (on_start wg cfg ext).filter isRegisterEvent
      = wg.workers.enum.map (fun p =>
          Event.coordinatorRegister p.2.metadata.hostname p.2.metadata.node_id p.1)
    ∧ ((on_start wg cfg ext).filter isRegisterEvent).length = wg.workers.length := by
  have hmain : (on_start wg cfg ext).filter isRegisterEvent
      = wg.workers.enum.map (fun p =>
          Event.coordinatorRegister p.2.metadata.hostname p.2.metadata.node_id p.1) := by
    simp only [on_start, List.filter_append]
    rw [filter_map_none _ _ (fun a => rfl), filter_map_all _ _ (fun a => rfl),
      filter_map_none _ _ (fun a => rfl)]
    simp [List.filter, isRegisterEvent, List.zip_map', List.enum_map, List.map_map,
      Function.comp, Prod.map]
  refine ⟨hmain, ?_⟩
  rw [hmain]
  simp

/-- Theorem for claim C3: in every execution of `on_start` the final
environment propagation (the broadcast of `update_env_vars` with
`coordinator_envs`) happens only after both `establish_rendezvous` and
`detect_nics` have completed, never before either of them: the trace
restricted to these three calls is exactly rendezvous, then interface
detection, then the broadcast. -/
theorem on_start_broadcast_after_rendezvous_and_nics
    (wg : WorkerGroup) (cfg : HorovodConfig) (ext : HorovodExternal) :
    (on_start wg cfg ext).filter isFinalPhaseEvent
      = [Event.coordinatorEstablishRendezvous, Event.detectNicsCall,
         Event.executeBroadcast (RemoteCall.callUpdateEnvVars
           (dictUpdate ext.rendezvous_envs ext.nics_env))] := by
  simp only [on_start, List.filter_append]
  rw [filter_map_none _ _ (fun a => rfl), filter_map_none _ _ (fun a => rfl),
    filter_map_none _ _ (fun a => rfl)]
  simp [List.filter, isFinalPhaseEvent]

/-- Collapsing runs merges an immediately repeated element. -/
theorem collapseRuns_cons_cons_eq (a : Nat) (t : List Nat) :
    collapseRuns (a :: a :: t) = collapseRuns (a :: t) := by
  simp [collapseRuns]

/-- Collapsing runs keeps the head when the next element differs. -/
theorem collapseRuns_cons_cons_ne {a b : Nat} (h : a ≠ b) (t : List Nat) :
    collapseRuns (a :: b :: t) = a :: collapseRuns (b :: t) := by
  simp [collapseRuns, h]

/-- Collapsing runs absorbs a replicated block after an equal head. -/
theorem collapseRuns_cons_replicate (a : Nat) (k : Nat) (rest : List Nat) :
    collapseRuns (a :: (List.replicate k a ++ rest)) = collapseRuns (a :: rest) := by
  induction k with
  | zero => simp
  | succ k ih =>
    rw [List.replicate_succ, List.cons_append, collapseRuns_cons_cons_eq]
    exact ih

/-- Collapsing the run shape produced by an `on_start` trace yields the seven
step indices in order. -/
theorem collapseRuns_sevenShape (k m : Nat) :
    collapseRuns (1 :: (List.replicate k 1 ++ 1 :: 2 :: 3 ::
      (List.replicate k 3 ++ 4 :: 5 :: (List.replicate m 5 ++ 5 :: 6 :: 7 :: [7]))))
      = [1, 2, 3, 4, 5, 6, 7] := by
  rw [collapseRuns_cons_replicate, collapseRuns_cons_cons_eq,
    collapseRuns_cons_cons_ne (by decide), collapseRuns_cons_cons_ne (by decide),
    collapseRuns_cons_replicate, collapseRuns_cons_cons_ne (by decide),
    collapseRuns_cons_cons_ne (by decide), collapseRuns_cons_replicate,
    collapseRuns_cons_cons_eq, collapseRuns_cons_cons_ne (by decide),
    collapseRuns_cons_cons_ne (by decide), collapseRuns_cons_cons_eq]
  rfl

/-- Step indices of an `on_start` trace for a nonempty worker group and a
nonempty registration dictionary: a run of seed steps, the coordinator
construction, a run of registrations, the finalization, a run of propagation
steps, the rendezvous, and the interface detection plus broadcast. -/
theorem map_stepOf_on_start (wg : WorkerGroup) (cfg : HorovodConfig) (ext : HorovodExternal)
    (w : Worker) (ws : List Worker) (a : Nat × EnvMap) (as : List (Nat × EnvMap))
    (hwe : wg.workers = w :: ws) (hae : ext.all_info = a :: as) :
    (on_start wg cfg ext).map stepOf =
      1 :: (List.replicate ws.length 1 ++ 1 :: 2 :: 3 ::
        (List.replicate ws.length 3 ++ 4 :: 5 ::
          (List.replicate as.length 5 ++ 5 :: 6 :: 7 :: [7]))) := by
  simp only [on_start, hwe, hae, List.map_append, List.map_map]
  simp only [List.enum_cons, List.zip_map', List.map_cons, List.map_map, Function.comp]
  simp [stepOf, Function.comp_def, List.map_const', List.length_zip,
    List.length_map, Nat.min_self, List.replicate_succ]

/-- Quiescence at boundaries decomposes over list concatenation. -/
theorem boundariesQuiescent_append (a b : List Event) (acc : Nat) :
    BoundariesQuiescent acc (a ++ b) ↔
      BoundariesQuiescent acc a ∧ BoundariesQuiescent (a.foldl stepOutstanding acc) b := by
  induction a generalizing acc with
  | nil => simp [BoundariesQuiescent]
  | cons e t ih => simp [BoundariesQuiescent, ih, and_assoc]

/-- A block of asynchronous issue events contains no phase boundary and is
therefore quiescent from any count. -/
theorem bq_issueBlock (l : List Future) (acc : Nat) :
    BoundariesQuiescent acc (l.map (fun f => Event.executeSingleAsync f.1 f.2)) := by
  induction l generalizing acc with
  | nil => trivial
  | cons f t ih => exact ⟨fun h => by simp [isPhaseBoundary] at h, ih _⟩

/-- A block of asynchronous issue events raises the outstanding count by its
length. -/
theorem foldl_issueBlock (l : List Future) (acc : Nat) :
    (l.map (fun f => Event.executeSingleAsync f.1 f.2)).foldl stepOutstanding acc
      = acc + l.length := by
  induction l generalizing acc with
  | nil => simp
  | cons f t ih =>
    simp only [List.map_cons, List.foldl_cons, stepOutstanding, ih, List.length_cons]
    omega

/-- Events that leave a zero outstanding count at zero keep a trace
quiescent. -/
theorem bq_keepZero (l : List Event) (h : ∀ e ∈ l, stepOutstanding 0 e = 0) :
    BoundariesQuiescent 0 l := by
  induction l with
  | nil => trivial
  | cons e t ih =>
    refine ⟨fun _ => rfl, ?_⟩
    rw [h e (List.mem_cons_self e t)]
    exact ih fun x hx => h x (List.mem_cons_of_mem _ hx)

/-- Events that leave a zero outstanding count at zero keep the fold at
zero. -/
theorem foldl_keepZero (l : List Event) (h : ∀ e ∈ l, stepOutstanding 0 e = 0) :
    l.foldl stepOutstanding 0 = 0 := by
  induction l with
  | nil => rfl
  | cons e t ih =>
    rw [List.foldl_cons, h e (List.mem_cons_self e t)]
    exact ih fun x hx => h x (List.mem_cons_of_mem _ hx)

/-- Every `on_start` trace is quiescent: each phase-boundary event occurs
with zero outstanding asynchronous requests. -/
theorem on_start_quiescent (wg : WorkerGroup) (cfg : HorovodConfig) (ext : HorovodExternal) :
    BoundariesQuiescent 0 (on_start wg cfg ext) := by
  simp only [on_start, List.append_assoc]
  rw [boundariesQuiescent_append]
  refine ⟨bq_issueBlock _ _, ?_⟩
  rw [foldl_issueBlock, boundariesQuiescent_append]
  refine ⟨⟨fun h => by simp [isPhaseBoundary] at h, trivial⟩, ?_⟩
  have hz : ∀ (l : List Future),
      List.foldl stepOutstanding (0 + l.length) [Event.rayGet l] = 0 := by
    intro l
    simp [stepOutstanding]
  rw [hz, boundariesQuiescent_append]
  refine ⟨⟨fun _ => rfl, trivial⟩, ?_⟩
  rw [show List.foldl stepOutstanding 0 [Event.coordinatorInit cfg] = 0 from rfl,
    boundariesQuiescent_append]
  refine ⟨bq_keepZero _ ?_, ?_⟩
  · intro e he
    simp only [List.mem_map] at he
    obtain ⟨p, _, rfl⟩ := he
    rfl
  rw [foldl_keepZero _ ?regz, boundariesQuiescent_append]
  case regz =>
    intro e he
    simp only [List.mem_map] at he
    obtain ⟨p, _, rfl⟩ := he
    rfl
  refine ⟨⟨fun _ => rfl, trivial⟩, ?_⟩
  rw [show List.foldl stepOutstanding 0 [Event.coordinatorFinalize] = 0 from rfl,
    boundariesQuiescent_append]
  refine ⟨bq_issueBlock _ _, ?_⟩
  rw [foldl_issueBlock, boundariesQuiescent_append]
  refine ⟨⟨fun h => by simp [isPhaseBoundary] at h, trivial⟩, ?_⟩
  rw [hz, boundariesQuiescent_append]
  refine ⟨⟨fun _ => rfl, trivial⟩, ?_⟩
  rw [show List.foldl stepOutstanding 0 [Event.coordinatorEstablishRendezvous] = 0 from rfl,
    boundariesQuiescent_append]
  refine ⟨⟨fun _ => rfl, trivial⟩, ?_⟩
  exact ⟨fun _ => rfl, trivial⟩

/-- In a quiescent trace, the prefix before any phase-boundary event folds
to zero outstanding requests. -/
theorem bq_prefix_zero (pre : List Event) :
    ∀ (acc : Nat) (l : List Event), BoundariesQuiescent acc l →
      ∀ (e : Event) (suf : List Event), l = pre ++ e :: suf → isPhaseBoundary e = true →
        pre.foldl stepOutstanding acc = 0 := by
  induction pre with
  | nil =>
    intro acc l h e suf hl hb
    subst hl
    exact h.1 hb
  | cons x t ih =>
    intro acc l h e suf hl hb
    subst hl
    exact ih (stepOutstanding acc x) _ h.2 e suf rfl hb

/-- Theorem for claim C4: `on_start` performs a fixed sequential handshake
whose steps occur in exactly this order on every call: seed per-worker
environment variables, construct the Coordinator from the backend config,
register each worker's hostname, finalize registration, propagate the
per-rank cross-worker environment variables, establish rendezvous, and
detect network interfaces with the final environment propagation.  Collapsing
the runs of step indices of the trace gives exactly 1 through 7 in order. -/
theorem on_start_seven_step_handshake
    (wg : WorkerGroup) (cfg : HorovodConfig) (ext : HorovodExternal)
    (hw : wg.workers ≠ []) (ha : ext.all_info ≠ []) :
    collapseRuns ((on_start wg cfg ext).map stepOf) = [1, 2, 3, 4, 5, 6, 7] := by
  obtain ⟨w, ws, hwe⟩ := List.exists_cons_of_ne_nil hw
  obtain ⟨a, as, hae⟩ := List.exists_cons_of_ne_nil ha
  rw [map_stepOf_on_start wg cfg ext w ws a as hwe hae, collapseRuns_sevenShape]

/-- Witness for claim C4 at a concrete one-worker group and one-entry
registration dictionary. -/
theorem on_start_seven_step_handshake_witness :
    sampleWorkerGroup.workers ≠ [] ∧ sampleExternal.all_info ≠ []
    ∧ collapseRuns ((on_start sampleWorkerGroup {} sampleExternal).map stepOf)
        = [1, 2, 3, 4, 5, 6, 7] :=
  ⟨by decide, by decide,
    on_start_seven_step_handshake sampleWorkerGroup {} sampleExternal
      (by decide) (by decide)⟩

/-- Theorem for claim C5: every phase of `on_start` that issues per-worker
asynchronous requests blocks until all of its outstanding requests completed
before the next handshake phase begins: whenever a phase-boundary event (any
external call other than issuing or waiting on requests) occurs, the prefix
of the trace before it has zero outstanding asynchronous requests. -/
theorem on_start_boundary_has_no_outstanding_requests
    (wg : WorkerGroup) (cfg : HorovodConfig) (ext : HorovodExternal)
    (pre : List Event) (e : Event) (suf : List Event)
    (hsplit : on_start wg cfg ext = pre ++ e :: suf)
    (hb : isPhaseBoundary e = true) :
    outstandingAfter pre = 0 :=
  bq_prefix_zero pre 0 _ (on_start_quiescent wg cfg ext) e suf hsplit hb

/-- Witness for claim C5 at a concrete one-worker trace, split at the
coordinator-construction event. -/
theorem on_start_boundary_has_no_outstanding_requests_witness :
    outstandingAfter
      [Event.executeSingleAsync 0 (RemoteCall.callInitEnvVars 0 1 "node0"),
       Event.rayGet [(0, RemoteCall.callInitEnvVars 0 1 "node0")]] = 0 :=
  on_start_boundary_has_no_outstanding_requests sampleWorkerGroup {} sampleExternal
    [Event.executeSingleAsync 0 (RemoteCall.callInitEnvVars 0 1 "node0"),
     Event.rayGet [(0, RemoteCall.callInitEnvVars 0 1 "node0")]]
    (Event.coordinatorInit {})
    [Event.coordinatorRegister "host0" "node0" 0,
     Event.coordinatorFinalize,
     Event.executeSingleAsync 0 (RemoteCall.callUpdateEnvVars [("HOROVOD_CROSS_RANK", "0")]),
     Event.rayGet [(0, RemoteCall.callUpdateEnvVars [("HOROVOD_CROSS_RANK", "0")])],
     Event.coordinatorEstablishRendezvous,
     Event.detectNicsCall,
     Event.executeBroadcast (RemoteCall.callUpdateEnvVars
       (dictUpdate [("HOROVOD_GLOO_RENDEZVOUS_ADDR", "127.0.0.1")] [("GLOO_IFACE", "eth0")]))]
    (by decide) (by decide)

/-- Theorem for claim C8: the configuration record is forwarded verbatim, as
the sole argument and unmodified, to the external coordinator constructor in
`on_start` (exactly one construction event, carrying exactly the given
config), and its dataclass defaults are `nics = None` and `verbose = 1`. -/
theorem on_start_forwards_config_verbatim
    (wg : WorkerGroup) (cfg : HorovodConfig) (ext : HorovodExternal) :
    (on_start wg cfg ext).filter isCoordinatorInitEvent = [Event.coordinatorInit cfg]
    ∧ (({} : HorovodConfig).nics = none ∧ ({} : HorovodConfig).verbose = 1) := by
  refine ⟨?_, rfl, rfl⟩
  simp only [on_start, List.filter_append]
  rw [filter_map_none _ _ (fun a => rfl), filter_map_none _ _ (fun a => rfl),
    filter_map_none _ _ (fun a => rfl)]
  simp [List.filter, isCoordinatorInitEvent]

end Horovod

namespace BigDataIngestion

/-- Theorem for claim C6: for every training data directory, epoch count and
shard count, `create_shuffle_pipeline` returns exactly the four-step call
chain reading the parquet data, repeating it for the epochs, shuffling each
window, and splitting into equal shards; `create_large_shuffle_pipeline`
applies the same four-step chain starting from the random-integer
datasource. -/
theorem pipelines_are_four_step_chains
    (training_data_dir : String) (data_size_bytes num_epochs num_columns num_shards : Nat) :
    IsFourStepChain (PipelineExpr.read_parquet training_data_dir) num_epochs num_shards
      (create_shuffle_pipeline training_data_dir num_epochs num_shards)
    ∧ IsFourStepChain
        (PipelineExpr.read_random_int_rows (data_size_bytes / 8 / num_columns)
          num_columns (some "node:")) num_epochs num_shards
        (create_large_shuffle_pipeline data_size_bytes num_epochs num_columns num_shards) :=
  ⟨⟨none, rfl⟩, ⟨some "node:", rfl⟩⟩

/-- Theorem for claim C7: the `--large-scale-test` flag selects exactly one
of two mutually exclusive runs: absent, the script runs the small local
configuration (local `ray.init`, 100 MiB of generated data, 4 training
workers); present, it runs the large cluster configuration (`ray.init` with
address auto, 500 GiB of data, 16 training workers requiring one GPU each);
never both and never neither. -/
theorem flag_selects_exactly_one_run (large_scale_test : Bool) :
    (scriptRuns large_scale_test).length = 1
    ∧ scriptRuns false =
        [{ address := none, dataSizeBytes := 104857600, numTrainingWorkers := 4,
           numEpochs := 5, numColumns := 10, gpusPerWorker := none }]
    ∧ scriptRuns true =
        [{ address := some "auto", dataSizeBytes := 536870912000, numTrainingWorkers := 16,
           numEpochs := 5, numColumns := 10, gpusPerWorker := some 1 }] := by
  refine ⟨?_, by decide, by decide⟩
  cases large_scale_test <;> decide

/-- Theorem for claim C10: in both pipelines the number of rows requested
from the random-integer datasource is exactly the integer floor division of
the byte size by 8 and then by the column count; in particular the small run
with 100 MiB and 10 columns requests exactly 1310720 rows. -/
theorem requested_rows_floor_division
    (size_bytes data_size_bytes num_epochs num_columns num_shards : Nat) :
    requestedRows (generate_example_files_read size_bytes) = some (size_bytes / 8 / 10)
    ∧ requestedRows (create_large_shuffle_pipeline data_size_bytes num_epochs
        num_columns num_shards) = some (data_size_bytes / 8 / num_columns)
    ∧ requestedRows (generate_example_files_read (100 * 1024 * 1024)) = some 1310720 :=
  ⟨rfl, rfl, by decide⟩

end BigDataIngestion
